import Mathlib

/-!
Shallow embedding of the computational core of `dannbus-energy/investor-state-energy`
(files `src/lroma_calculator.py` and `src/fmip_model.py`).

Modelling conventions:
* Python numbers (int / float) are embedded as exact rationals; `PyVal.int`
  carries a Python `int`, `PyVal.float` a Python `float` value.  Dynamic
  (duck-typed) dictionary values are embedded as `PyVal`.
* Python dictionaries are association lists (insertion order preserved, keys
  unique in every dictionary the program builds); `lookupD` is `d[k]`.
* Fallible code returns `Except PyErr`.  `PyErr.keyError k` embeds
  `KeyError(k)` raised by a failed dictionary subscript;
  `PyErr.scenarioNotFound s keys` embeds the `KeyError` raised by
  `calculate_fmip` whose message is
  `f"Scenario '{s}' not found in parameters. Available: {keys}"` — the
  constructor carries exactly the data interpolated into that message;
  `PyErr.missingParam s k` embeds the re-raised
  `KeyError(f"Missing required parameter in scenario '{s}': {k}")`;
  `PyErr.zeroDiv` embeds `ZeroDivisionError`; `PyErr.typeError` embeds
  `TypeError` (raised by arithmetic on non-numeric operands, by sequence
  repetition with a non-int count, and by iterating a non-sequence).
  Exotic Python behaviours never exercised by this program (string
  repetition `"a" * 3`, booleans as ints) are not modelled.
-/

namespace InvestorState

/-- A dynamically typed Python value as stored in the program's parameter
dictionaries: ints, floats, strings and (cash-flow) lists. -/
inductive PyVal where
  | int (n : ℤ)
  | float (q : ℚ)
  | str (s : String)
  | list (l : List PyVal)

/-- Python exceptions raised by the two calculators.  The three `KeyError`
shapes are kept separate so that each theorem exposes the data carried in the
corresponding message (see the module docstring). -/
inductive PyErr where
  | keyError (key : String)
  | scenarioNotFound (requested : String) (available : List String)
  | missingParam (scenario : String) (key : String)
  | zeroDiv
  | typeError
deriving Repr, DecidableEq

/-- All three `keyError`-shaped constructors embed Python `KeyError`s
(`scenarioNotFound` and `missingParam` are `KeyError`s with formatted
messages). -/
def PyErr.isKeyError : PyErr → Bool
  | .keyError _ => true
  | .scenarioNotFound _ _ => true
  | .missingParam _ _ => true
  | _ => false

/-- A Python parameter dictionary. -/
abbrev Dict := List (String × PyVal)

/-- Numeric coercion: arithmetic on a non-numeric operand raises `TypeError`. -/
def toNum : PyVal → Except PyErr ℚ
  | .int n => .ok (n : ℚ)
  | .float q => .ok q
  | _ => .error .typeError

/-- Sequence repetition (`[x] * n`) and `range` require a Python `int`;
anything else raises `TypeError`. -/
def toCount : PyVal → Except PyErr ℤ
  | .int n => .ok n
  | _ => .error .typeError

/-- Dictionary membership test / value retrieval (Python dictionaries have
unique keys; the first binding is the binding). -/
def lookupD {α : Type} : List (String × α) → String → Option α
  | [], _ => none
  | (k, v) :: rest, key => if k = key then some v else lookupD rest key

/-- `d[k]` on a dictionary: the value, or `KeyError(k)`. -/
def getKey (d : Dict) (k : String) : Except PyErr PyVal :=
  match lookupD d k with
  | some v => .ok v
  | none => .error (.keyError k)

/-- `d[k] = v`: rebind `k` if present (keeping its position), otherwise
append the new binding. -/
def dictSet {α : Type} : List (String × α) → String → α → List (String × α)
  | [], k, v => [(k, v)]
  | (k', v') :: rest, k, v =>
    if k' = k then (k, v) :: rest else (k', v') :: dictSet rest k v

/-- Python truthiness for the values this program tests (`if not cash_flows`). -/
def pyFalsy : PyVal → Bool
  | .int n => n = 0
  | .float q => q = 0
  | .str s => s.isEmpty
  | .list l => l.isEmpty

/-- Python `x * value` for the cash-flow scaling comprehension: numeric
multiplication (int·int stays int), `TypeError` otherwise. -/
def pyMul : PyVal → PyVal → Except PyErr PyVal
  | .int a, .int b => .ok (.int (a * b))
  | .int a, .float b => .ok (.float ((a : ℚ) * b))
  | .float a, .int b => .ok (.float (a * (b : ℚ)))
  | .float a, .float b => .ok (.float (a * b))
  | _, _ => .error .typeError

/-- Best-effort `str(value)` used only to build the ephemeral scenario key
`f"temp_{param_name}_{value}"` in `FMIPCalculator.sensitivity_analysis`; the
key is written and immediately looked up in a one-entry dictionary, so the
exact rendering is immaterial. -/
def pyStr : PyVal → String
  | .int n => toString n
  | .float q => toString q
  | .str s => s
  | .list _ => "[...]"

/-- `s.endswith(suffix)`, computed on the character lists so that it
evaluates by reduction. -/
def strEndsWith (s suffix : String) : Bool :=
  suffix.data.reverse.isPrefixOf s.data.reverse

/-- The generator `sum(cf / (1 + discount_rate) ** t for t, cf in
enumerate(cash_flows, start))` once every operand is known numeric:
term `t` raises `ZeroDivisionError` when `(1 + r) ** t == 0`
(Python: `0.0 ** 0 == 1.0`, so the `t = 0` term never divides by zero). -/
def pvTerms (r : ℚ) : ℕ → List ℚ → Except PyErr ℚ
  | _, [] => .ok 0
  | t, cf :: rest =>
    if (1 + r) ^ t = 0 then .error .zeroDiv
    else do
      let s ← pvTerms r (t + 1) rest
      .ok (cf / (1 + r) ^ t + s)

/-- The same generator over dynamically typed elements, as evaluated by
`calculate_npv` / `calculate_present_value`: each term first evaluates
`(1 + discount_rate) ** t` (TypeError on a non-numeric rate), then the
division (TypeError on a non-numeric cash flow, ZeroDivisionError on a zero
denominator). -/
def pvGo (discount_rate : PyVal) : ℕ → List PyVal → Except PyErr ℚ
  | _, [] => .ok 0
  | t, cfV :: rest => do
    let r ← toNum discount_rate
    let cf ← toNum cfV
    if (1 + r) ^ t = 0 then .error .zeroDiv
    else do
      let s ← pvGo discount_rate (t + 1) rest
      .ok (cf / (1 + r) ^ t + s)

/-- Pure (error-free) value of the discounted sum, used to state theorems;
`pvTerms` agrees with it whenever `1 + r ≠ 0`. -/
def discSum (r : ℚ) : ℕ → List ℚ → ℚ
  | _, [] => 0
  | t, cf :: rest => cf / (1 + r) ^ t + discSum r (t + 1) rest

namespace LROMACalculator

/-- `LROMACalculator.calculate_npv` (lroma_calculator.py lines 14–17):
`sum(cf / (1 + discount_rate) ** t for t, cf in enumerate(cash_flows, 1))`.
Iterating a non-sequence raises `TypeError` (an empty string iterates to
nothing and sums to `0`). -/
def calculate_npv (cash_flows discount_rate : PyVal) : Except PyErr ℚ :=
  match cash_flows with
  | .list l => pvGo discount_rate 1 l
  | .str s => if s.isEmpty then .ok 0 else .error .typeError
  | _ => .error .typeError

/-- `LROMACalculator.calculate_lroma` (lroma_calculator.py lines 19–47),
in the source's evaluation order: the six subscripts, then
`annual_profit = annual_distance * (freight_rate - tco_per_km)`
(the subtraction's operands are type-checked first), then
`cash_flows = [-capex] + [annual_profit] * vehicle_life`, then the inline
NPV sum enumerated from `t = 0`, then
`pv_distance = sum(annual_distance / (1+r)**t for t in range(1, vehicle_life+1))`,
then `npv / pv_distance if pv_distance != 0 else 0`. -/
def calculate_lroma (vehicle_params : Dict) : Except PyErr ℚ := do
  let capexV ← getKey vehicle_params "capex"
  let annual_distanceV ← getKey vehicle_params "annual_distance"
  let tco_per_kmV ← getKey vehicle_params "tco_per_km"
  let freight_rateV ← getKey vehicle_params "freight_rate"
  let discount_rateV ← getKey vehicle_params "discount_rate"
  let vehicle_lifeV ← getKey vehicle_params "vehicle_life"
  let freight_rate ← toNum freight_rateV
  let tco_per_km ← toNum tco_per_kmV
  let annual_distance ← toNum annual_distanceV
  let annual_profit := annual_distance * (freight_rate - tco_per_km)
  let capex ← toNum capexV
  let vehicle_life ← toCount vehicle_lifeV
  let cash_flows := -capex :: List.replicate vehicle_life.toNat annual_profit
  let discount_rate ← toNum discount_rateV
  let npv ← pvTerms discount_rate 0 cash_flows
  let pv_distance ← pvTerms discount_rate 1
      (List.replicate vehicle_life.toNat annual_distance)
  pure (if pv_distance ≠ 0 then npv / pv_distance else 0)

/-- One row of the sensitivity table: columns `parameter`, `value`, `lroma`. -/
structure SensRow where
  parameter : String
  value : PyVal
  lroma : ℚ

/-- The `except (KeyError, ZeroDivisionError)` clause of
`LROMACalculator.sensitivity_analysis`: which exceptions are recovered. -/
def caughtByLromaSweep (e : PyErr) : Bool :=
  e.isKeyError || e = .zeroDiv

/-- The inner loop of `sensitivity_analysis` for one parameter name: each
override is applied to a (shallow) copy of `base_params`; a `KeyError` or
`ZeroDivisionError` row is skipped with a warning, any other exception
propagates and aborts the whole sweep. -/
def sweepValues (base_params : Dict) (param_name : String) :
    List PyVal → Except PyErr (List SensRow)
  | [] => .ok []
  | value :: rest =>
    match calculate_lroma (dictSet base_params param_name value) with
    | .ok lroma => do
      let more ← sweepValues base_params param_name rest
      .ok ({ parameter := param_name, value := value, lroma := lroma } :: more)
    | .error e =>
      if caughtByLromaSweep e then sweepValues base_params param_name rest
      else .error e

/-- `LROMACalculator.sensitivity_analysis` (lroma_calculator.py lines 49–68):
the returned DataFrame is the concatenation of the per-parameter sweeps. -/
def sensitivity_analysis (base_params : Dict) :
    List (String × List PyVal) → Except PyErr (List SensRow)
  | [] => .ok []
  | (param_name, values) :: rest => do
    let rows ← sweepValues base_params param_name values
    let more ← sensitivity_analysis base_params rest
    .ok (rows ++ more)

end LROMACalculator

/-- The value of the `fmip` field: a Python float that may be `float('inf')`. -/
inductive PyFloat where
  | fin (q : ℚ)
  | inf
deriving Repr, DecidableEq

namespace FMIPCalculator

/-- `FMIPCalculator.calculate_present_value` (fmip_model.py lines 14–20):
`if not cash_flows: return 0.0`, otherwise the discounted sum enumerated
from `t = 1`.  The truthiness guard means every falsy argument (empty list,
`0`, empty string) returns `0.0` without touching `discount_rate`; a truthy
non-sequence raises `TypeError` when enumerated. -/
def calculate_present_value (cash_flows discount_rate : PyVal) : Except PyErr ℚ :=
  if pyFalsy cash_flows then .ok 0
  else match cash_flows with
    | .list l => pvGo discount_rate 1 l
    | _ => .error .typeError

/-- The record returned by `calculate_fmip`. -/
structure FMIPResult where
  fmip : PyFloat
  pv_public_investment : ℚ
  pv_tax_revenues : ℚ
  pv_fiscal_avoidance : ℚ
  total_fiscal_return : ℚ
  scenario : String

/-- The `try: ... except KeyError as e: raise KeyError(f"Missing required
parameter in scenario '{scenario}': {e}")` block of `calculate_fmip`:
a `KeyError` escaping the block is re-raised as `missingParam`. -/
def wrapMissing (scenario : String) : Except PyErr α → Except PyErr α
  | .error (.keyError k) => .error (.missingParam scenario k)
  | x => x

/-- `FMIPCalculator.calculate_fmip` (fmip_model.py lines 22–62):
scenario lookup (a miss raises the `KeyError` whose message names the
requested scenario and `list(self.parameters.keys())`), the three present
values computed inside the `KeyError`-wrapping `try` block (each call
subscripts its cash-flow key and then `social_discount_rate`, in source
order), then the three-way `fmip` branch and the result record. -/
def calculate_fmip (parameters : List (String × Dict)) (scenario : String) :
    Except PyErr FMIPResult := do
  match lookupD parameters scenario with
  | none => .error (.scenarioNotFound scenario (parameters.map Prod.fst))
  | some scenario_params => do
    let pvs ← wrapMissing scenario (do
      let icfs ← getKey scenario_params "public_investment_cashflows"
      let r1 ← getKey scenario_params "social_discount_rate"
      let pv_public_investment ← calculate_present_value icfs r1
      let tcfs ← getKey scenario_params "tax_revenue_cashflows"
      let r2 ← getKey scenario_params "social_discount_rate"
      let pv_tax_revenues ← calculate_present_value tcfs r2
      let acfs ← getKey scenario_params "fiscal_avoidance_cashflows"
      let r3 ← getKey scenario_params "social_discount_rate"
      let pv_fiscal_avoidance ← calculate_present_value acfs r3
      pure (pv_public_investment, pv_tax_revenues, pv_fiscal_avoidance))
    let (pvI, pvT, pvA) := pvs
    let fmip : PyFloat :=
      if pvI = 0 then (if pvT + pvA > 0 then .inf else .fin 0)
      else .fin ((pvT + pvA) / pvI)
    pure { fmip := fmip
           pv_public_investment := pvI
           pv_tax_revenues := pvT
           pv_fiscal_avoidance := pvA
           total_fiscal_return := pvT + pvA
           scenario := scenario }

/-- One row of the FMIP sensitivity table: columns `parameter`, `value`,
`fmip`, `scenario`. -/
structure FSensRow where
  parameter : String
  value : PyVal
  fmip : PyFloat
  scenario : String

/-- One sweep point of `FMIPCalculator.sensitivity_analysis` (the body of the
`try` in lines 96–115): copy the base scenario, either scale the named
cash-flow list element-wise into a fresh list or overwrite the scalar field,
then run `calculate_fmip` on an ephemeral one-scenario calculator keyed
`f"temp_{param_name}_{value}"`. -/
def sensPoint (base_params : Dict) (param_name : String) (value : PyVal) :
    Except PyErr FMIPResult := do
  let modified_params ←
    if strEndsWith param_name "_cashflows" then do
      let cur ← getKey base_params param_name
      match cur with
      | .list l => do
        let scaled ← l.mapM (fun x => pyMul x value)
        pure (dictSet base_params param_name (.list scaled))
      | _ => .error .typeError
    else
      pure (dictSet base_params param_name value)
  let key := "temp_" ++ param_name ++ "_" ++ pyStr value
  calculate_fmip [(key, modified_params)] key

/-- The inner loop of `FMIPCalculator.sensitivity_analysis` for one parameter:
`except Exception` recovers every failure, so a failing sweep point is always
skipped and never aborts the sweep. -/
def fSweepValues (base_params : Dict) (base_scenario : String)
    (param_name : String) : List PyVal → List FSensRow
  | [] => []
  | value :: rest =>
    match sensPoint base_params param_name value with
    | .ok r =>
      { parameter := param_name, value := value, fmip := r.fmip
        scenario := base_scenario } :: fSweepValues base_params base_scenario param_name rest
    | .error _ => fSweepValues base_params base_scenario param_name rest

/-- The per-parameter concatenation inside `FMIPCalculator.sensitivity_analysis`. -/
def fSweep (base_params : Dict) (base_scenario : String) :
    List (String × List PyVal) → List FSensRow
  | [] => []
  | (param_name, values) :: rest =>
    fSweepValues base_params base_scenario param_name values ++
      fSweep base_params base_scenario rest

/-- `FMIPCalculator.sensitivity_analysis` (fmip_model.py lines 88–121):
`base_params = self.parameters[base_scenario]` runs before (outside) the
per-point `try`, so an unknown base scenario raises; every per-point failure
is caught and skipped. -/
def sensitivity_analysis (parameters : List (String × Dict))
    (base_scenario : String)
    (parameter_variations : List (String × List PyVal)) :
    Except PyErr (List FSensRow) :=
  match lookupD parameters base_scenario with
  | none => .error (.keyError base_scenario)
  | some base_params => .ok (fSweep base_params base_scenario parameter_variations)

end FMIPCalculator

/-! ### Discounted-sum lemmas -/

theorem pvTerms_ok {r : ℚ} (h : 1 + r ≠ 0) :
    ∀ (s : ℕ) (l : List ℚ), pvTerms r s l = .ok (discSum r s l) := by
  intro s l
  induction l generalizing s with
  | nil => rfl
  | cons cf rest ih =>
    simp only [pvTerms, discSum, pow_ne_zero _ h, if_false, ih]
    rfl

theorem pvGo_floats (r : ℚ) :
    ∀ (s : ℕ) (qs : List ℚ), pvGo (.float r) s (qs.map PyVal.float) = pvTerms r s qs := by
  intro s qs
  induction qs generalizing s with
  | nil => rfl
  | cons cf rest ih =>
    simp only [List.map_cons, pvGo, pvTerms, toNum, ih]
    rfl

theorem discSum_replicate (r a : ℚ) :
    ∀ (n s : ℕ), discSum r s (List.replicate n a) =
      ∑ t ∈ Finset.Ico s (s + n), a / (1 + r) ^ t := by
  intro n
  induction n with
  | zero => simp [discSum]
  | succ m ih =>
    intro s
    rw [List.replicate_succ]
    have hlt : s < s + (m + 1) := by omega
    have hb : s + (m + 1) = (s + 1) + m := by omega
    rw [Finset.sum_eq_sum_Ico_succ_bot hlt, hb]
    simp only [discSum, ih (s + 1)]

theorem discSum_icc (r a : ℚ) (n : ℕ) :
    discSum r 1 (List.replicate n a) = ∑ t ∈ Finset.Icc 1 n, a / (1 + r) ^ t := by
  rw [discSum_replicate, add_comm 1 n, Nat.Ico_succ_right]

theorem discSum_getD (r : ℚ) :
    ∀ (l : List ℚ) (s : ℕ), discSum r s l =
      ∑ i ∈ Finset.range l.length, l.getD i 0 / (1 + r) ^ (s + i) := by
  intro l
  induction l with
  | nil => simp [discSum]
  | cons cf rest ih =>
    intro s
    rw [List.length_cons, Finset.sum_range_succ']
    simp only [discSum, ih (s + 1), List.getD_cons_succ, List.getD_cons_zero, add_zero]
    rw [add_comm]
    congr 1
    apply Finset.sum_congr rfl
    intro i _
    have hb : s + 1 + i = s + (i + 1) := by omega
    rw [hb]

theorem discSum_shift {r : ℚ} (h : 1 + r ≠ 0) :
    ∀ (l : List ℚ) (s : ℕ), discSum r s l = (1 + r) * discSum r (s + 1) l := by
  intro l
  induction l with
  | nil => simp [discSum]
  | cons cf rest ih =>
    intro s
    simp only [discSum, mul_add, ← ih (s + 1)]
    congr 1
    rw [pow_succ]
    field_simp
    ring

theorem discSum_rate_zero : ∀ (l : List ℚ) (s : ℕ), discSum 0 s l = l.sum := by
  intro l
  induction l with
  | nil => simp [discSum]
  | cons cf rest ih =>
    intro s
    simp [discSum, ih]

/-! ### Characterization of `calculate_lroma` on a well-formed parameter mapping -/

theorem calculate_lroma_spec (d : Dict)
    (capexV adV tcoV frV drV : PyVal) (capex ad tco fr r : ℚ) (L : ℕ)
    (hcV : lookupD d "capex" = some capexV) (hc : toNum capexV = .ok capex)
    (haV : lookupD d "annual_distance" = some adV) (ha : toNum adV = .ok ad)
    (htV : lookupD d "tco_per_km" = some tcoV) (ht : toNum tcoV = .ok tco)
    (hfV : lookupD d "freight_rate" = some frV) (hf : toNum frV = .ok fr)
    (hrV : lookupD d "discount_rate" = some drV) (hr : toNum drV = .ok r)
    (hlV : lookupD d "vehicle_life" = some (PyVal.int (L : ℤ)))
    (hr1 : 1 + r ≠ 0) :
    LROMACalculator.calculate_lroma d = .ok
      (if discSum r 1 (List.replicate L ad) = 0 then 0
       else (-capex + discSum r 1 (List.replicate L (ad * (fr - tco)))) /
            discSum r 1 (List.replicate L ad)) := by
  simp only [LROMACalculator.calculate_lroma, getKey, hcV, haV, htV, hfV, hrV, hlV,
    hc, ha, ht, hf, hr, toCount, bind, Except.bind, pure, Except.pure]
  rw [pvTerms_ok hr1, pvTerms_ok hr1]
  simp only [Int.toNat_natCast, discSum, pow_zero, div_one, ite_not]

/-- At `discount_rate = -1` with at least one profit year, the inline NPV sum
of `calculate_lroma` divides by `(1 + r)^1 = 0` and raises
`ZeroDivisionError`. -/
theorem calculate_lroma_rate_neg_one (d : Dict)
    (capexV adV tcoV frV drV : PyVal) (capex ad tco fr : ℚ) (L : ℕ)
    (hcV : lookupD d "capex" = some capexV) (hc : toNum capexV = .ok capex)
    (haV : lookupD d "annual_distance" = some adV) (ha : toNum adV = .ok ad)
    (htV : lookupD d "tco_per_km" = some tcoV) (ht : toNum tcoV = .ok tco)
    (hfV : lookupD d "freight_rate" = some frV) (hf : toNum frV = .ok fr)
    (hrV : lookupD d "discount_rate" = some drV) (hr : toNum drV = .ok (-1))
    (hlV : lookupD d "vehicle_life" = some (PyVal.int (L : ℤ)))
    (hL : 1 ≤ L) :
    LROMACalculator.calculate_lroma d = .error .zeroDiv := by
  simp only [LROMACalculator.calculate_lroma, getKey, hcV, haV, htV, hfV, hrV, hlV,
    hc, ha, ht, hf, hr, toCount, bind, Except.bind, pure, Except.pure]
  obtain ⟨M, rfl⟩ : ∃ M, L = M + 1 := ⟨L - 1, by omega⟩
  norm_num [Int.toNat_natCast, List.replicate, pvTerms]
  rfl

/-! ### Concrete inputs (the base parameters of `run_analysis.py` / `test_lroma.py`,
and a small demonstration scenario for the FMIP witnesses) -/

def lromaBaseParams : Dict :=
  [("capex", .float 4800000), ("annual_distance", .float 100000),
   ("tco_per_km", .float (132/10)), ("freight_rate", .float 25),
   ("discount_rate", .float (8/100)), ("vehicle_life", .int 8)]

/-- A zero-public-investment scenario exercising the degenerate FMIP branch. -/
def fmipDemoScenario : Dict :=
  [("public_investment_cashflows", .list [.float 0]),
   ("tax_revenue_cashflows", .list [.float 50]),
   ("fiscal_avoidance_cashflows", .list [.float 30]),
   ("social_discount_rate", .float (3/100))]

def fmipDemoParams : List (String × Dict) := [("base_case", fmipDemoScenario)]

/-! ### Claims -/

/-- Claim C1: for every vehicle-parameter mapping containing the six required
keys (numeric values, an integer `vehicle_life`), with `discount_rate ≠ -1`,
`calculate_lroma` returns `npv / pv_distance` where
`npv = -capex + Σ_{t=1}^{L} annual_profit/(1+r)^t` (the outlay at `t = 0`
undiscounted) and `pv_distance = Σ_{t=1}^{L} annual_distance/(1+r)^t`,
and returns `0` when `pv_distance = 0`. -/
theorem claim_C1 (d : Dict)
    (capexV adV tcoV frV drV : PyVal) (capex ad tco fr r : ℚ) (L : ℕ)
    (hcV : lookupD d "capex" = some capexV) (hc : toNum capexV = .ok capex)
    (haV : lookupD d "annual_distance" = some adV) (ha : toNum adV = .ok ad)
    (htV : lookupD d "tco_per_km" = some tcoV) (ht : toNum tcoV = .ok tco)
    (hfV : lookupD d "freight_rate" = some frV) (hf : toNum frV = .ok fr)
    (hrV : lookupD d "discount_rate" = some drV) (hr : toNum drV = .ok r)
    (hlV : lookupD d "vehicle_life" = some (PyVal.int (L : ℤ)))
    (hr1 : r ≠ -1) :
    LROMACalculator.calculate_lroma d = .ok
      (if (∑ t ∈ Finset.Icc 1 L, ad / (1 + r) ^ t) = 0 then 0
       else (-capex + ∑ t ∈ Finset.Icc 1 L, ad * (fr - tco) / (1 + r) ^ t) /
            ∑ t ∈ Finset.Icc 1 L, ad / (1 + r) ^ t) := by
  have h1 : 1 + r ≠ 0 := fun h => hr1 (by linarith)
  rw [calculate_lroma_spec d capexV adV tcoV frV drV capex ad tco fr r L
    hcV hc haV ha htV ht hfV hf hrV hr hlV h1, discSum_icc, discSum_icc]

/-- Witness for C1 at the repository's base parameters. -/
theorem claim_C1_witness :
    LROMACalculator.calculate_lroma lromaBaseParams = .ok
      (if (∑ t ∈ Finset.Icc 1 8, (100000:ℚ) / (1 + 8/100) ^ t) = 0 then 0
       else (-4800000 + ∑ t ∈ Finset.Icc 1 8, (100000:ℚ) * (25 - 132/10) / (1 + 8/100) ^ t) /
            ∑ t ∈ Finset.Icc 1 8, (100000:ℚ) / (1 + 8/100) ^ t) :=
  claim_C1 lromaBaseParams _ _ _ _ _ 4800000 100000 (132/10) 25 (8/100) 8
    rfl rfl rfl rfl rfl rfl rfl rfl rfl rfl rfl (by norm_num)

/-- Claim C2: whenever the scenario exists and its three present values
compute to `pvI`, `pvT`, `pvA`, `calculate_fmip` succeeds with the exact
three-way `fmip` branch (ratio / `+inf` / `0.0`) — a zero denominator never
raises a division error. -/
theorem claim_C2 (parameters : List (String × Dict)) (name : String) (sp : Dict)
    (icfs tcfs acfs rv : PyVal) (pvI pvT pvA : ℚ)
    (hlook : lookupD parameters name = some sp)
    (hi : lookupD sp "public_investment_cashflows" = some icfs)
    (ht : lookupD sp "tax_revenue_cashflows" = some tcfs)
    (ha : lookupD sp "fiscal_avoidance_cashflows" = some acfs)
    (hr : lookupD sp "social_discount_rate" = some rv)
    (hpvI : FMIPCalculator.calculate_present_value icfs rv = .ok pvI)
    (hpvT : FMIPCalculator.calculate_present_value tcfs rv = .ok pvT)
    (hpvA : FMIPCalculator.calculate_present_value acfs rv = .ok pvA) :
    FMIPCalculator.calculate_fmip parameters name = .ok
      { fmip := if pvI ≠ 0 then .fin ((pvT + pvA) / pvI)
                else if pvT + pvA > 0 then .inf else .fin 0
        pv_public_investment := pvI
        pv_tax_revenues := pvT
        pv_fiscal_avoidance := pvA
        total_fiscal_return := pvT + pvA
        scenario := name } := by
  simp only [FMIPCalculator.calculate_fmip, hlook, getKey, hi, ht, ha, hr,
    hpvI, hpvT, hpvA, FMIPCalculator.wrapMissing,
    bind, Except.bind, pure, Except.pure, ite_not]

/-- Witness for C2 at the degenerate zero-investment scenario: the `fmip`
field is `+inf`. -/
theorem claim_C2_witness :
    FMIPCalculator.calculate_fmip fmipDemoParams "base_case" = .ok
      { fmip := .inf
        pv_public_investment := 0
        pv_tax_revenues := 5000/103
        pv_fiscal_avoidance := 3000/103
        total_fiscal_return := 5000/103 + 3000/103
        scenario := "base_case" } := by
  have h := claim_C2 fmipDemoParams "base_case" fmipDemoScenario
    (.list [.float 0]) (.list [.float 50]) (.list [.float 30]) (.float (3/100))
    0 (5000/103) (3000/103) rfl rfl rfl rfl rfl
    (by simp [FMIPCalculator.calculate_present_value, pyFalsy, pvGo, toNum,
      pvTerms, bind, Except.bind]; norm_num)
    (by simp [FMIPCalculator.calculate_present_value, pyFalsy, pvGo, toNum,
      pvTerms, bind, Except.bind]; norm_num)
    (by simp [FMIPCalculator.calculate_present_value, pyFalsy, pvGo, toNum,
      pvTerms, bind, Except.bind]; norm_num)
  rw [h]
  norm_num

/-- Claim C3: `calculate_present_value` discounts the `i`-th element of the
sequence by `(1+r)^(i+1)` — the first element at `(1+r)^1`, never at unity —
and returns `0` for the empty sequence (whatever the rate argument is). -/
theorem claim_C3 (qs : List ℚ) (r : ℚ) (hr : r ≠ -1) :
    FMIPCalculator.calculate_present_value (.list (qs.map PyVal.float)) (.float r) =
      .ok (∑ i ∈ Finset.range qs.length, qs.getD i 0 / (1 + r) ^ (i + 1)) ∧
    ∀ rv : PyVal, FMIPCalculator.calculate_present_value (.list []) rv = .ok 0 := by
  have h1 : 1 + r ≠ 0 := fun h => hr (by linarith)
  constructor
  · cases qs with
    | nil => simp [FMIPCalculator.calculate_present_value, pyFalsy]
    | cons q rest =>
      have hfalsy : pyFalsy (.list ((q :: rest).map PyVal.float)) = false := by
        simp [pyFalsy]
      simp only [FMIPCalculator.calculate_present_value, hfalsy, Bool.false_eq_true,
        if_false, pvGo_floats, pvTerms_ok h1, discSum_getD]
      congr 1
      apply Finset.sum_congr rfl
      intro i _
      rw [add_comm 1 i]
  · intro rv
    simp [FMIPCalculator.calculate_present_value, pyFalsy]

/-- Witness for C3 at a two-element sequence and 10% rate. -/
theorem claim_C3_witness :
    (FMIPCalculator.calculate_present_value
        (.list ([10, 20].map PyVal.float)) (.float (1/10)) =
      .ok (∑ i ∈ Finset.range ([10, 20] : List ℚ).length,
            ([10, 20] : List ℚ).getD i 0 / (1 + 1/10) ^ (i + 1)) ∧
    ∀ rv : PyVal, FMIPCalculator.calculate_present_value (.list []) rv = .ok 0) :=
  claim_C3 [10, 20] (1/10) (by norm_num)

/-- Claim C4 counterexample: at the repository's base parameters the code
returns exactly `349689063292/101438785825 ≈ 3.447`, which is more than `3`
below the claimed `6.88`. -/
theorem claim_C4_counterexample :
    LROMACalculator.calculate_lroma lromaBaseParams = .ok (349689063292/101438785825) ∧
    (349689063292 : ℚ)/101438785825 + 3 < 688/100 := by
  constructor
  · rw [calculate_lroma_spec lromaBaseParams _ _ _ _ _ 4800000 100000 (132/10) 25 (8/100) 8
      rfl rfl rfl rfl rfl rfl rfl rfl rfl rfl rfl (by norm_num)]
    norm_num [discSum, List.replicate]
  · norm_num

/-- Claim C4 (amended): at the base parameters `calculate_lroma` returns a
finite positive value `≈ 3.45` (between `3.44` and `3.45`), not `≈ 6.88`. -/
theorem claim_C4 :
    LROMACalculator.calculate_lroma lromaBaseParams = .ok (349689063292/101438785825) ∧
    (344/100 : ℚ) < 349689063292/101438785825 ∧
    (349689063292 : ℚ)/101438785825 < 345/100 ∧
    (0 : ℚ) < 349689063292/101438785825 := by
  refine ⟨?_, by norm_num, by norm_num, by norm_num⟩
  rw [calculate_lroma_spec lromaBaseParams _ _ _ _ _ 4800000 100000 (132/10) 25 (8/100) 8
    rfl rfl rfl rfl rfl rfl rfl rfl rfl rfl rfl (by norm_num)]
  norm_num [discSum, List.replicate]

/-- Claim C5 counterexample: `freight_rate = 13.3 > 13.2 = tco_per_km`,
`vehicle_life = 8 ≥ 1`, positive `capex`, `annual_distance`, `discount_rate`,
yet LROMA is strictly negative (the discounted profit stream does not cover
the outlay). -/
theorem claim_C5_counterexample :
    (132/10 : ℚ) < 133/10 ∧
    LROMACalculator.calculate_lroma
        (dictSet lromaBaseParams "freight_rate" (.float (133/10))) =
      .ok (-1674289461721/202877571650) ∧
    (-1674289461721 : ℚ)/202877571650 < 0 := by
  refine ⟨by norm_num, ?_, by norm_num⟩
  rw [calculate_lroma_spec (dictSet lromaBaseParams "freight_rate" (.float (133/10)))
    _ _ _ _ _ 4800000 100000 (132/10) (133/10) (8/100) 8
    rfl rfl rfl rfl rfl rfl rfl rfl rfl rfl rfl (by norm_num)]
  norm_num [discSum, List.replicate]

/-- Claim C5 (amended): LROMA is strictly positive under the claim's
hypotheses provided additionally the discounted profit stream exceeds the
outlay: `capex < Σ_{t=1}^{L} annual_distance·(freight_rate − tco_per_km)/(1+r)^t`. -/
theorem claim_C5 (d : Dict)
    (capexV adV tcoV frV drV : PyVal) (capex ad tco fr r : ℚ) (L : ℕ)
    (hcV : lookupD d "capex" = some capexV) (hc : toNum capexV = .ok capex)
    (haV : lookupD d "annual_distance" = some adV) (ha : toNum adV = .ok ad)
    (htV : lookupD d "tco_per_km" = some tcoV) (ht : toNum tcoV = .ok tco)
    (hfV : lookupD d "freight_rate" = some frV) (hf : toNum frV = .ok fr)
    (hrV : lookupD d "discount_rate" = some drV) (hr : toNum drV = .ok r)
    (hlV : lookupD d "vehicle_life" = some (PyVal.int (L : ℤ)))
    (hfr : tco < fr) (hL : 1 ≤ L) (hcap : 0 < capex) (had : 0 < ad) (hrpos : 0 < r)
    (hprofit : capex < ∑ t ∈ Finset.Icc 1 L, ad * (fr - tco) / (1 + r) ^ t) :
    ∃ q : ℚ, LROMACalculator.calculate_lroma d = .ok q ∧ 0 < q := by
  have h1 : (0:ℚ) < 1 + r := by linarith
  have h1' : (1:ℚ) + r ≠ 0 := ne_of_gt h1
  have hpv : 0 < ∑ t ∈ Finset.Icc 1 L, ad / (1 + r) ^ t := by
    apply Finset.sum_pos
    · intro t _
      exact div_pos had (pow_pos h1 t)
    · exact Finset.nonempty_Icc.mpr hL
  refine ⟨(-capex + ∑ t ∈ Finset.Icc 1 L, ad * (fr - tco) / (1 + r) ^ t) /
          ∑ t ∈ Finset.Icc 1 L, ad / (1 + r) ^ t, ?_, ?_⟩
  · rw [calculate_lroma_spec d capexV adV tcoV frV drV capex ad tco fr r L
      hcV hc haV ha htV ht hfV hf hrV hr hlV h1', discSum_icc, discSum_icc,
      if_neg (ne_of_gt hpv)]
  · apply div_pos _ hpv
    linarith

/-- Witness for C5 (amended) at the repository's base parameters. -/
theorem claim_C5_witness :
    ∃ q : ℚ, LROMACalculator.calculate_lroma lromaBaseParams = .ok q ∧ 0 < q :=
  claim_C5 lromaBaseParams _ _ _ _ _ 4800000 100000 (132/10) 25 (8/100) 8
    rfl rfl rfl rfl rfl rfl rfl rfl rfl rfl rfl
    (by norm_num) (by norm_num) (by norm_num) (by norm_num) (by norm_num)
    (by norm_num [Finset.sum_Icc_succ_top, Finset.Icc_self, Finset.sum_singleton])

/-- Claim C6: looking up a scenario name absent from the parameter mapping
makes `calculate_fmip` raise the `KeyError` that names the requested scenario
and carries the list of all scenario keys present; no result is returned. -/
theorem claim_C6 (parameters : List (String × Dict)) (scenario : String)
    (h : lookupD parameters scenario = none) :
    FMIPCalculator.calculate_fmip parameters scenario =
      .error (.scenarioNotFound scenario (parameters.map Prod.fst)) := by
  simp [FMIPCalculator.calculate_fmip, h]

/-- Witness for C6: an unknown scenario against the demo mapping. -/
theorem claim_C6_witness :
    FMIPCalculator.calculate_fmip fmipDemoParams "unknown" =
      .error (.scenarioNotFound "unknown" ["base_case"]) :=
  claim_C6 fmipDemoParams "unknown" rfl

/-- Claim C8: at `discount_rate = 0` both present-value computations — the
LROMA sum enumerated from `t = 0` (the instance of `pvTerms` used inside
`calculate_lroma`) and the FMIP sum enumerated from `t = 1` — return exactly
the plain sum of the sequence. -/
theorem claim_C8 (cfs : List ℚ) :
    pvTerms 0 0 cfs = .ok cfs.sum ∧
    FMIPCalculator.calculate_present_value
        (.list (cfs.map PyVal.float)) (.float 0) = .ok cfs.sum := by
  have h1 : (1:ℚ) + 0 ≠ 0 := by norm_num
  constructor
  · rw [pvTerms_ok h1, discSum_rate_zero]
  · cases cfs with
    | nil => simp [FMIPCalculator.calculate_present_value, pyFalsy]
    | cons q rest =>
      have hfalsy : pyFalsy (.list ((q :: rest).map PyVal.float)) = false := by
        simp [pyFalsy]
      simp only [FMIPCalculator.calculate_present_value, hfalsy, Bool.false_eq_true,
        if_false, pvGo_floats, pvTerms_ok h1, discSum_rate_zero]

/-- Claim C10: `LROMACalculator.calculate_npv` and
`FMIPCalculator.calculate_present_value` agree on every non-empty sequence
(both enumerate from `t = 1`), and the inline NPV of `calculate_lroma`
(enumerated from `t = 0`) equals `(1+r)` times the value `calculate_npv`
yields on the same cash-flow list. -/
theorem claim_C10 (l : List PyVal) (rv : PyVal) (r : ℚ)
    (hne : l ≠ []) (hrv : toNum rv = .ok r) (hr : r ≠ -1) :
    LROMACalculator.calculate_npv (.list l) rv =
      FMIPCalculator.calculate_present_value (.list l) rv ∧
    ∀ qs : List ℚ, ∃ m : ℚ,
      LROMACalculator.calculate_npv (.list (qs.map PyVal.float)) (.float r) = .ok m ∧
      pvTerms r 0 qs = .ok ((1 + r) * m) := by
  have h1 : 1 + r ≠ 0 := fun h => hr (by linarith)
  constructor
  · have hfalsy : pyFalsy (.list l) = false := by
      simp [pyFalsy, hne]
    simp [LROMACalculator.calculate_npv, FMIPCalculator.calculate_present_value, hfalsy]
  · intro qs
    refine ⟨discSum r 1 qs, ?_, ?_⟩
    · simp only [LROMACalculator.calculate_npv, pvGo_floats, pvTerms_ok h1]
    · rw [pvTerms_ok h1, ← discSum_shift h1]

/-! ### Sensitivity-sweep lemmas (claim C7) -/

theorem sweepValues_all_ok (base : Dict) (p : String) (f : PyVal → ℚ) :
    ∀ vs : List PyVal,
      (∀ v ∈ vs, LROMACalculator.calculate_lroma (dictSet base p v) = .ok (f v)) →
      LROMACalculator.sweepValues base p vs =
        .ok (vs.map fun v => ⟨p, v, f v⟩) := by
  intro vs
  induction vs with
  | nil => intro _; rfl
  | cons v rest ih =>
    intro h
    have hv := h v (by simp)
    have hrest := ih fun w hw => h w (by simp [hw])
    simp [LROMACalculator.sweepValues, hv, hrest, bind, Except.bind]

theorem sweepValues_skip (base : Dict) (p : String) (vs1 vs2 : List PyVal)
    (bad : PyVal) (e : PyErr) (f : PyVal → ℚ)
    (h : ∀ v ∈ vs1 ++ vs2, LROMACalculator.calculate_lroma (dictSet base p v) = .ok (f v))
    (hbad : LROMACalculator.calculate_lroma (dictSet base p bad) = .error e)
    (hc : LROMACalculator.caughtByLromaSweep e = true) :
    LROMACalculator.sweepValues base p (vs1 ++ bad :: vs2) =
      .ok ((vs1 ++ vs2).map fun v => ⟨p, v, f v⟩) := by
  induction vs1 with
  | nil =>
    have h2 : ∀ v ∈ vs2, LROMACalculator.calculate_lroma (dictSet base p v) = .ok (f v) :=
      fun w hw => h w (by simp [hw])
    simp [LROMACalculator.sweepValues, hbad, hc, sweepValues_all_ok base p f vs2 h2]
  | cons v rest ih =>
    have hv := h v (by simp)
    have hrest := ih fun w hw => h w (by simp at hw ⊢; tauto)
    simp [LROMACalculator.sweepValues, hv, hrest, bind, Except.bind]

theorem fSweepValues_all_ok (base : Dict) (scen p : String) (g : PyVal → FMIPCalculator.FMIPResult) :
    ∀ vs : List PyVal,
      (∀ v ∈ vs, FMIPCalculator.sensPoint base p v = .ok (g v)) →
      FMIPCalculator.fSweepValues base scen p vs =
        vs.map fun v => ⟨p, v, (g v).fmip, scen⟩ := by
  intro vs
  induction vs with
  | nil => intro _; rfl
  | cons v rest ih =>
    intro h
    have hv := h v (by simp)
    have hrest := ih fun w hw => h w (by simp [hw])
    simp [FMIPCalculator.fSweepValues, hv, hrest]

theorem fSweepValues_skip (base : Dict) (scen p : String) (vs1 vs2 : List PyVal)
    (bad : PyVal) (e : PyErr) (g : PyVal → FMIPCalculator.FMIPResult)
    (h : ∀ v ∈ vs1 ++ vs2, FMIPCalculator.sensPoint base p v = .ok (g v))
    (hbad : FMIPCalculator.sensPoint base p bad = .error e) :
    FMIPCalculator.fSweepValues base scen p (vs1 ++ bad :: vs2) =
      (vs1 ++ vs2).map fun v => ⟨p, v, (g v).fmip, scen⟩ := by
  induction vs1 with
  | nil =>
    have h2 : ∀ v ∈ vs2, FMIPCalculator.sensPoint base p v = .ok (g v) :=
      fun w hw => h w (by simp [hw])
    simp [FMIPCalculator.fSweepValues, hbad, fSweepValues_all_ok base scen p g vs2 h2]
  | cons v rest ih =>
    have hv := h v (by simp)
    have hrest := ih fun w hw => h w (by simp at hw ⊢; tauto)
    simp [FMIPCalculator.fSweepValues, hv, hrest]

/-- Claim C7 (amended): in a sweep over one parameter whose value list holds
exactly one failing override, the failing row is omitted and every valid
override yields its row — for LROMA only when the failure is a `KeyError` or
`ZeroDivisionError` (the exceptions its `except` clause recovers); for FMIP
for every failure (its `except Exception` recovers everything).  A failure of
any other type aborts the whole LROMA batch (see the counterexample). -/
theorem claim_C7 :
    (∀ (base : Dict) (p : String) (vs1 vs2 : List PyVal) (bad : PyVal) (e : PyErr)
        (f : PyVal → ℚ),
      (∀ v ∈ vs1 ++ vs2, LROMACalculator.calculate_lroma (dictSet base p v) = .ok (f v)) →
      LROMACalculator.calculate_lroma (dictSet base p bad) = .error e →
      LROMACalculator.caughtByLromaSweep e = true →
      LROMACalculator.sensitivity_analysis base [(p, vs1 ++ bad :: vs2)] =
        .ok ((vs1 ++ vs2).map fun v => ⟨p, v, f v⟩)) ∧
    (∀ (parameters : List (String × Dict)) (scen : String) (bp : Dict) (p : String)
        (vs1 vs2 : List PyVal) (bad : PyVal) (e : PyErr)
        (g : PyVal → FMIPCalculator.FMIPResult),
      lookupD parameters scen = some bp →
      (∀ v ∈ vs1 ++ vs2, FMIPCalculator.sensPoint bp p v = .ok (g v)) →
      FMIPCalculator.sensPoint bp p bad = .error e →
      FMIPCalculator.sensitivity_analysis parameters scen [(p, vs1 ++ bad :: vs2)] =
        .ok ((vs1 ++ vs2).map fun v => ⟨p, v, (g v).fmip, scen⟩)) := by
  constructor
  · intro base p vs1 vs2 bad e f h hbad hc
    simp [LROMACalculator.sensitivity_analysis,
      sweepValues_skip base p vs1 vs2 bad e f h hbad hc, bind, Except.bind]
  · intro parameters scen bp p vs1 vs2 bad e g hlook h hbad
    simp [FMIPCalculator.sensitivity_analysis, hlook,
      FMIPCalculator.fSweep, fSweepValues_skip bp scen p vs1 vs2 bad e g h hbad]

/-- Claim C7 counterexample: in the LROMA sweep
`{"freight_rate": [20, "bad", 30]}` over the base parameters, the overrides
`20` and `30` each succeed and only `"bad"` fails (with a `TypeError`), yet
the whole batch aborts with that `TypeError` instead of returning the two
valid rows. -/
theorem claim_C7_counterexample :
    (∃ q, LROMACalculator.calculate_lroma
        (dictSet lromaBaseParams "freight_rate" (.float 20)) = .ok q) ∧
    (∃ q, LROMACalculator.calculate_lroma
        (dictSet lromaBaseParams "freight_rate" (.float 30)) = .ok q) ∧
    LROMACalculator.calculate_lroma
        (dictSet lromaBaseParams "freight_rate" (.str "bad")) = .error .typeError ∧
    LROMACalculator.sensitivity_analysis lromaBaseParams
        [("freight_rate", [.float 20, .str "bad", .float 30])] = .error .typeError := by
  have h20 := calculate_lroma_spec (dictSet lromaBaseParams "freight_rate" (.float 20))
    _ _ _ _ _ 4800000 100000 (132/10) 20 (8/100) 8
    rfl rfl rfl rfl rfl rfl rfl rfl rfl rfl rfl (by norm_num)
  have h30 := calculate_lroma_spec (dictSet lromaBaseParams "freight_rate" (.float 30))
    _ _ _ _ _ 4800000 100000 (132/10) 30 (8/100) 8
    rfl rfl rfl rfl rfl rfl rfl rfl rfl rfl rfl (by norm_num)
  have hbad : LROMACalculator.calculate_lroma
      (dictSet lromaBaseParams "freight_rate" (.str "bad")) = .error .typeError := rfl
  refine ⟨⟨_, h20⟩, ⟨_, h30⟩, hbad, ?_⟩
  simp [LROMACalculator.sensitivity_analysis, LROMACalculator.sweepValues,
    h20, hbad, LROMACalculator.caughtByLromaSweep, PyErr.isKeyError, bind, Except.bind]

def fmipSweepScenario : Dict :=
  [("public_investment_cashflows", .list []),
   ("tax_revenue_cashflows", .list [.float 1]),
   ("fiscal_avoidance_cashflows", .list []),
   ("social_discount_rate", .float 0)]

def fmipSweepParams : List (String × Dict) := [("sweep_case", fmipSweepScenario)]

/-- The per-override LROMA values of the witness sweep below
(`discount_rate = 0` gives `29/5`; `discount_rate = 1` gives `-3093/85`). -/
def lromaSweepVal : PyVal → ℚ
  | .float q => if q = 0 then 29/5 else -3093/85
  | _ => 0

/-- The per-override FMIP results of the witness sweep below (scaling the
one-element tax stream at rate `0` gives `pv_tax = q`, and the empty public
investment stream keeps the denominator at `0`, so `fmip = +inf`). -/
def fmipSweepRes : PyVal → FMIPCalculator.FMIPResult
  | .float q =>
    { fmip := .inf, pv_public_investment := 0, pv_tax_revenues := q
      pv_fiscal_avoidance := 0, total_fiscal_return := q
      scenario := "temp_tax_revenue_cashflows_" ++ pyStr (.float q) }
  | _ =>
    { fmip := .fin 0, pv_public_investment := 0, pv_tax_revenues := 0
      pv_fiscal_avoidance := 0, total_fiscal_return := 0, scenario := "" }

/-- Witness for C7 (amended): a LROMA sweep whose middle override
(`discount_rate = -1`) fails with the recovered `ZeroDivisionError`, and an
FMIP sweep whose middle override (a non-numeric cash-flow multiplier) fails
scaling with a `TypeError`; in both, the two valid overrides yield exactly
their rows. -/
theorem claim_C7_witness :
    LROMACalculator.sensitivity_analysis lromaBaseParams
        [("discount_rate", [.float 0] ++ .float (-1) :: [.float 1])] =
      .ok (([PyVal.float 0] ++ [PyVal.float 1]).map fun v =>
        ⟨"discount_rate", v, lromaSweepVal v⟩) ∧
    FMIPCalculator.sensitivity_analysis fmipSweepParams "sweep_case"
        [("tax_revenue_cashflows", [.float 2] ++ .str "x" :: [.float 3])] =
      .ok (([PyVal.float 2] ++ [PyVal.float 3]).map fun v =>
        ⟨"tax_revenue_cashflows", v, (fmipSweepRes v).fmip, "sweep_case"⟩) := by
  constructor
  · refine claim_C7.1 lromaBaseParams "discount_rate" [.float 0] [.float 1]
      (.float (-1)) .zeroDiv lromaSweepVal ?_ ?_ rfl
    · intro v hv
      simp only [List.singleton_append, List.mem_cons, List.not_mem_nil, or_false] at hv
      rcases hv with rfl | rfl
      · rw [calculate_lroma_spec (dictSet lromaBaseParams "discount_rate" (.float 0))
          _ _ _ _ _ 4800000 100000 (132/10) 25 0 8
          rfl rfl rfl rfl rfl rfl rfl rfl rfl rfl rfl (by norm_num)]
        norm_num [discSum, List.replicate, lromaSweepVal]
      · rw [calculate_lroma_spec (dictSet lromaBaseParams "discount_rate" (.float 1))
          _ _ _ _ _ 4800000 100000 (132/10) 25 1 8
          rfl rfl rfl rfl rfl rfl rfl rfl rfl rfl rfl (by norm_num)]
        norm_num [discSum, List.replicate, lromaSweepVal]
    · exact calculate_lroma_rate_neg_one
        (dictSet lromaBaseParams "discount_rate" (.float (-1)))
        _ _ _ _ _ 4800000 100000 (132/10) 25 8
        rfl rfl rfl rfl rfl rfl rfl rfl rfl rfl rfl (by norm_num)
  · refine claim_C7.2 fmipSweepParams "sweep_case" fmipSweepScenario
      "tax_revenue_cashflows" [.float 2] [.float 3] (.str "x") .typeError
      fmipSweepRes rfl ?_ ?_
    · intro v hv
      simp only [List.singleton_append, List.mem_cons, List.not_mem_nil, or_false] at hv
      rcases hv with rfl | rfl <;>
        · simp only [FMIPCalculator.sensPoint, FMIPCalculator.calculate_fmip,
            FMIPCalculator.calculate_present_value, FMIPCalculator.wrapMissing,
            getKey, fmipSweepScenario, dictSet, pyMul, pyFalsy, pvGo, toNum,
            pvTerms, strEndsWith, fmipSweepRes, pyStr, List.mapM, List.mapM.loop,
            bind, Except.bind, pure, Except.pure]
          simp [lookupD, List.mapM.loop, pvGo, toNum, pyFalsy, pyMul,
            bind, Except.bind, pure, Except.pure]
    · rfl

/-! ### Heap model of the sensitivity sweeps (claim C9)

Python dictionaries and lists are mutable objects shared by reference;
`dict.copy()` is shallow.  To state that the sweeps never mutate any
caller-owned structure, the two `sensitivity_analysis` loops are re-embedded
over an explicit store of list objects and dictionary objects.  The
calculators themselves only read, so each sweep point dereferences its
(copied, modified) dictionary into plain values and runs the pure embedding
above. -/

/-- A dictionary value at heap level: scalars are immediate, lists are
references into the store. -/
inductive HVal where
  | int (n : ℤ)
  | float (q : ℚ)
  | str (s : String)
  | ref (i : ℕ)

abbrev HDict := List (String × HVal)

/-- The store: list objects and dictionary objects addressed by index;
allocation appends, mutation is `List.set`. -/
structure Store where
  lists : List (List HVal)
  dicts : List HDict

def Store.readList (σ : Store) (i : ℕ) : List HVal := σ.lists.getD i []

def Store.readDict (σ : Store) (d : ℕ) : HDict := σ.dicts.getD d []

/-- `base_params.copy()`: allocate a fresh dictionary object with the same
bindings (shallow — list values keep their references). -/
def Store.copyDict (σ : Store) (d : ℕ) : Store × ℕ :=
  (⟨σ.lists, σ.dicts ++ [σ.readDict d]⟩, σ.dicts.length)

/-- `d[k] = v` on the dictionary object at address `d`. -/
def Store.writeKey (σ : Store) (d : ℕ) (k : String) (v : HVal) : Store :=
  ⟨σ.lists, σ.dicts.set d (dictSet (σ.readDict d) k v)⟩

/-- A list comprehension's result: a fresh list object. -/
def Store.allocList (σ : Store) (l : List HVal) : Store × ℕ :=
  (⟨σ.lists ++ [l], σ.dicts⟩, σ.lists.length)

/-- `x * value` over heap values (a list reference is not a number). -/
def hMul : HVal → HVal → Except PyErr HVal
  | .int a, .int b => .ok (.int (a * b))
  | .int a, .float b => .ok (.float ((a : ℚ) * b))
  | .float a, .int b => .ok (.float (a * (b : ℚ)))
  | .float a, .float b => .ok (.float (a * b))
  | _, _ => .error .typeError

/-- `str(value)` for the ephemeral scenario key, as `pyStr`. -/
def hStr : HVal → String
  | .int n => toString n
  | .float q => toString q
  | .str s => s
  | .ref _ => "[...]"

/-- Read a heap value as a plain value for the read-only calculators (one
list level — this program's cash-flow lists are flat numeric sequences, so a
nested reference is rendered as an opaque non-numeric placeholder). -/
def HVal.toPy (σ : Store) : HVal → PyVal
  | .int n => .int n
  | .float q => .float q
  | .str s => .str s
  | .ref i => .list ((σ.readList i).map fun h =>
      match h with
      | .int n => .int n
      | .float q => .float q
      | .str s => .str s
      | .ref _ => .list [])

/-- Dereference the dictionary object at `d` into a plain parameter mapping. -/
def Store.derefDict (σ : Store) (d : ℕ) : Dict :=
  (σ.readDict d).map fun kv => (kv.1, kv.2.toPy σ)

/-- One sweep point of `LROMACalculator.sensitivity_analysis` at heap level:
`modified_params = base_params.copy()` allocates a new dictionary object,
`modified_params[param_name] = value` writes to that copy only, then
`calculate_lroma(modified_params)` reads. -/
def lromaPointH (σ : Store) (baseRef : ℕ) (param_name : String) (value : HVal) :
    Store × Except PyErr ℚ :=
  let (σ1, mRef) := σ.copyDict baseRef
  let σ2 := σ1.writeKey mRef param_name value
  (σ2, LROMACalculator.calculate_lroma (σ2.derefDict mRef))

/-- The LROMA inner sweep at heap level, threading the store; a `KeyError` or
`ZeroDivisionError` skips the row, any other exception aborts (the store
keeps whatever the aborted iteration had already allocated). -/
def lromaSweepH (baseRef : ℕ) (p : String) :
    Store → List HVal → Store × Except PyErr (List (String × HVal × ℚ))
  | σ, [] => (σ, .ok [])
  | σ, v :: rest =>
    match lromaPointH σ baseRef p v with
    | (σ1, .ok q) =>
      match lromaSweepH baseRef p σ1 rest with
      | (σ2, .ok rows) => (σ2, .ok ((p, v, q) :: rows))
      | (σ2, .error e) => (σ2, .error e)
    | (σ1, .error e) =>
      if LROMACalculator.caughtByLromaSweep e then lromaSweepH baseRef p σ1 rest
      else (σ1, .error e)

/-- `LROMACalculator.sensitivity_analysis` at heap level. -/
def lromaSensH (baseRef : ℕ) :
    Store → List (String × List HVal) → Store × Except PyErr (List (String × HVal × ℚ))
  | σ, [] => (σ, .ok [])
  | σ, (p, vs) :: rest =>
    match lromaSweepH baseRef p σ vs with
    | (σ1, .ok rows) =>
      match lromaSensH baseRef σ1 rest with
      | (σ2, .ok more) => (σ2, .ok (rows ++ more))
      | (σ2, .error e) => (σ2, .error e)
    | (σ1, .error e) => (σ1, .error e)

/-- `calculate_fmip` on the ephemeral one-scenario calculator
`FMIPCalculator({f"temp_{p}_{value}": modified_params})` — read-only. -/
def fmipRunTempH (σ : Store) (mRef : ℕ) (p : String) (value : HVal) :
    Except PyErr FMIPCalculator.FMIPResult :=
  let key := "temp_" ++ p ++ "_" ++ hStr value
  FMIPCalculator.calculate_fmip [(key, σ.derefDict mRef)] key

/-- One sweep point of `FMIPCalculator.sensitivity_analysis` at heap level:
copy the base scenario dictionary; for a `*_cashflows` parameter read the
referenced list, build the scaled list as a FRESH allocation
(`[x * value for x in modified_params[param_name]]`) and rebind the copy's
key to the new reference — the original list object is never written;
otherwise overwrite the scalar on the copy.  `except Exception` turns every
failure into a skipped row (`none`). -/
def fmipPointH (σ : Store) (baseRef : ℕ) (p : String) (value : HVal) :
    Store × Option FMIPCalculator.FMIPResult :=
  let (σ1, mRef) := σ.copyDict baseRef
  if strEndsWith p "_cashflows" then
    match lookupD (σ1.readDict mRef) p with
    | some (HVal.ref i) =>
      match (σ1.readList i).mapM (fun x => hMul x value) with
      | .ok scaled =>
        let (σ2, j) := σ1.allocList scaled
        let σ3 := σ2.writeKey mRef p (.ref j)
        (σ3, (fmipRunTempH σ3 mRef p value).toOption)
      | .error _ => (σ1, none)
    | some _ => (σ1, none)
    | none => (σ1, none)
  else
    let σ2 := σ1.writeKey mRef p value
    (σ2, (fmipRunTempH σ2 mRef p value).toOption)

/-- The FMIP inner sweep at heap level (never aborts). -/
def fmipSweepH (baseRef : ℕ) (scen p : String) :
    Store → List HVal → Store × List (String × HVal × PyFloat × String)
  | σ, [] => (σ, [])
  | σ, v :: rest =>
    match fmipPointH σ baseRef p v with
    | (σ1, some r) =>
      let (σ2, rows) := fmipSweepH baseRef scen p σ1 rest
      (σ2, (p, v, r.fmip, scen) :: rows)
    | (σ1, none) => fmipSweepH baseRef scen p σ1 rest

/-- `FMIPCalculator.sensitivity_analysis` at heap level (after the base
scenario has been resolved to the dictionary object at `baseRef`). -/
def fmipSensH (baseRef : ℕ) (scen : String) :
    Store → List (String × List HVal) → Store × List (String × HVal × PyFloat × String)
  | σ, [] => (σ, [])
  | σ, (p, vs) :: rest =>
    let (σ1, rows) := fmipSweepH baseRef scen p σ vs
    let (σ2, more) := fmipSensH baseRef scen σ1 rest
    (σ2, rows ++ more)

/-- `σ'` preserves every object already present in `σ`: the stored contents
at all pre-existing addresses are unchanged (new objects may follow). -/
def Store.Preserves (σ σ' : Store) : Prop :=
  σ'.lists.take σ.lists.length = σ.lists ∧ σ'.dicts.take σ.dicts.length = σ.dicts

theorem Store.Preserves.refl (σ : Store) : Store.Preserves σ σ := by
  constructor <;> simp

theorem take_set_of_le {α : Type} :
    ∀ (l : List α) (i n : ℕ) (x : α), n ≤ i → (l.set i x).take n = l.take n := by
  intro l
  induction l with
  | nil => intros; rfl
  | cons a l ih =>
    intro i n x h
    match i, n with
    | 0, 0 => rfl
    | 0, n + 1 => omega
    | i + 1, 0 => rfl
    | i + 1, n + 1 => simp [List.set, List.take, ih i n x (by omega)]

theorem Store.Preserves.trans {σ0 σ1 σ2 : Store}
    (h1 : Store.Preserves σ0 σ1) (h2 : Store.Preserves σ1 σ2) :
    Store.Preserves σ0 σ2 := by
  obtain ⟨hl1, hd1⟩ := h1
  obtain ⟨hl2, hd2⟩ := h2
  have ll : σ0.lists.length ≤ σ1.lists.length := by
    have h := congrArg List.length hl1
    simp [List.length_take] at h
    omega
  have ld : σ0.dicts.length ≤ σ1.dicts.length := by
    have h := congrArg List.length hd1
    simp [List.length_take] at h
    omega
  constructor
  · calc σ2.lists.take σ0.lists.length
        = (σ2.lists.take σ1.lists.length).take σ0.lists.length := by
          rw [List.take_take, min_eq_left ll]
      _ = σ0.lists := by rw [hl2, hl1]
  · calc σ2.dicts.take σ0.dicts.length
        = (σ2.dicts.take σ1.dicts.length).take σ0.dicts.length := by
          rw [List.take_take, min_eq_left ld]
      _ = σ0.dicts := by rw [hd2, hd1]

theorem copyDict_preserves (σ : Store) (d : ℕ) :
    Store.Preserves σ (σ.copyDict d).1 := by
  constructor
  · simp [Store.copyDict]
  · exact List.take_left _ _

theorem allocList_preserves (σ : Store) (l : List HVal) :
    Store.Preserves σ (σ.allocList l).1 := by
  constructor
  · exact List.take_left _ _
  · simp [Store.allocList]

theorem writeKey_preserves {σ0 σ : Store} (h : Store.Preserves σ0 σ)
    (d : ℕ) (hd : σ0.dicts.length ≤ d) (k : String) (v : HVal) :
    Store.Preserves σ0 (σ.writeKey d k v) := by
  obtain ⟨hl, hdics⟩ := h
  exact ⟨hl, by rw [Store.writeKey, take_set_of_le _ _ _ _ hd, hdics]⟩

theorem lromaPointH_preserves (σ : Store) (baseRef : ℕ) (p : String) (v : HVal) :
    Store.Preserves σ (lromaPointH σ baseRef p v).1 :=
  writeKey_preserves (copyDict_preserves σ baseRef) _ le_rfl _ _

theorem fmipPointH_preserves (σ : Store) (baseRef : ℕ) (p : String) (v : HVal) :
    Store.Preserves σ (fmipPointH σ baseRef p v).1 := by
  unfold fmipPointH
  split
  rename_i σ1 mRef heq
  have hcopy : Store.Preserves σ σ1 := by
    have h := copyDict_preserves σ baseRef
    rwa [heq] at h
  have hmRef : σ.dicts.length ≤ mRef := by
    have h := congrArg Prod.snd heq
    simp only [Store.copyDict] at h
    omega
  split
  · split
    · split
      · rename_i i heqlook scaled heqmap
        exact writeKey_preserves (hcopy.trans (allocList_preserves σ1 scaled)) mRef hmRef p _
      · exact hcopy
    · exact hcopy
    · exact hcopy
  · exact writeKey_preserves hcopy mRef hmRef p v

theorem lromaSweepH_preserves (baseRef : ℕ) (p : String) :
    ∀ (σ : Store) (vs : List HVal), Store.Preserves σ (lromaSweepH baseRef p σ vs).1 := by
  intro σ vs
  induction vs generalizing σ with
  | nil => exact Store.Preserves.refl σ
  | cons v rest ih =>
    simp only [lromaSweepH]
    split
    · rename_i σ1 q heq
      have hpt := lromaPointH_preserves σ baseRef p v
      rw [heq] at hpt
      split
      · rename_i σ2 rows heq2
        have hr := ih σ1
        rw [heq2] at hr
        exact hpt.trans hr
      · rename_i σ2 e heq2
        have hr := ih σ1
        rw [heq2] at hr
        exact hpt.trans hr
    · rename_i σ1 e heq
      have hpt := lromaPointH_preserves σ baseRef p v
      rw [heq] at hpt
      split
      · exact hpt.trans (ih σ1)
      · exact hpt

theorem lromaSensH_preserves (baseRef : ℕ) :
    ∀ (σ : Store) (ranges : List (String × List HVal)),
      Store.Preserves σ (lromaSensH baseRef σ ranges).1 := by
  intro σ ranges
  induction ranges generalizing σ with
  | nil => exact Store.Preserves.refl σ
  | cons pr rest ih =>
    rcases pr with ⟨p, vs⟩
    simp only [lromaSensH]
    split
    · rename_i σ1 rows heq
      have hsw := lromaSweepH_preserves baseRef p σ vs
      rw [heq] at hsw
      split
      · rename_i σ2 more heq2
        have hr := ih σ1
        rw [heq2] at hr
        exact hsw.trans hr
      · rename_i σ2 e heq2
        have hr := ih σ1
        rw [heq2] at hr
        exact hsw.trans hr
    · rename_i σ1 e heq
      have hsw := lromaSweepH_preserves baseRef p σ vs
      rw [heq] at hsw
      exact hsw

theorem fmipSweepH_preserves (baseRef : ℕ) (scen p : String) :
    ∀ (σ : Store) (vs : List HVal), Store.Preserves σ (fmipSweepH baseRef scen p σ vs).1 := by
  intro σ vs
  induction vs generalizing σ with
  | nil => exact Store.Preserves.refl σ
  | cons v rest ih =>
    simp only [fmipSweepH]
    split
    · rename_i σ1 r heq
      have hpt := fmipPointH_preserves σ baseRef p v
      rw [heq] at hpt
      have hr := ih σ1
      rcases heq2 : fmipSweepH baseRef scen p σ1 rest with ⟨σ2, rows⟩
      rw [heq2] at hr
      simp only [heq2]
      exact hpt.trans hr
    · rename_i σ1 heq
      have hpt := fmipPointH_preserves σ baseRef p v
      rw [heq] at hpt
      exact hpt.trans (ih σ1)

theorem fmipSensH_preserves (baseRef : ℕ) (scen : String) :
    ∀ (σ : Store) (ranges : List (String × List HVal)),
      Store.Preserves σ (fmipSensH baseRef scen σ ranges).1 := by
  intro σ ranges
  induction ranges generalizing σ with
  | nil => exact Store.Preserves.refl σ
  | cons pr rest ih =>
    rcases pr with ⟨p, vs⟩
    simp only [fmipSensH]
    have hsw := fmipSweepH_preserves baseRef scen p σ vs
    rcases heq : fmipSweepH baseRef scen p σ vs with ⟨σ1, rows⟩
    rw [heq] at hsw
    have hr := ih σ1
    rcases heq2 : fmipSensH baseRef scen σ1 rest with ⟨σ2, more⟩
    rw [heq2] at hr
    simp only [heq, heq2]
    exact hsw.trans hr

/-- Claim C9: running either sensitivity sweep preserves every pre-existing
store object — in particular the caller-supplied base parameter dictionary
and (for FMIP) every cash-flow list of the base scenario are unchanged: each
sweep point writes only to its fresh shallow copy, and cash-flow scaling
allocates a new list instead of modifying the original. -/
theorem claim_C9 (σ : Store) (baseRef : ℕ) (scen : String)
    (ranges : List (String × List HVal)) :
    Store.Preserves σ (lromaSensH baseRef σ ranges).1 ∧
    Store.Preserves σ (fmipSensH baseRef scen σ ranges).1 :=
  ⟨lromaSensH_preserves baseRef σ ranges, fmipSensH_preserves baseRef scen σ ranges⟩

/-- Witness for C10 at a one-element list and 10% rate. -/
theorem claim_C10_witness :
    (LROMACalculator.calculate_npv (.list [.float 5]) (.float (1/10)) =
      FMIPCalculator.calculate_present_value (.list [.float 5]) (.float (1/10)) ∧
    ∀ qs : List ℚ, ∃ m : ℚ,
      LROMACalculator.calculate_npv (.list (qs.map PyVal.float)) (.float (1/10)) = .ok m ∧
      pvTerms (1/10) 0 qs = .ok ((1 + 1/10) * m)) :=
  claim_C10 [.float 5] (.float (1/10)) (1/10) (by simp) rfl (by norm_num)

end InvestorState
